import Mathlib

/-!
Verification of the celestial-body core of the `astray` repository.

The repository's numeric type is `f32`; the embedding is generic over a
linear ordered field `α` (with a floor structure where the code truncates
or normalizes), so every definition stays computable and the structural
claims can be evaluated at `α = ℚ`, while the claims that mention `π`
are stated at `α = ℝ`.

Sources embedded from `src/`:
  - `src/game/celestial_bodies.rs` (the `STAR_NAMES` table construction),
  - `src/game/celestial_bodies/solar_system.rs` (`SolarSystem` and its impls).

The files `star.rs`, `planet.rs` and the `helpers::astrophysics` /
`helpers::orbit_dynamics` modules are not part of the provided sources;
the definitions that stand in for them are marked `Modelled from the spec:`
in their doc comments. Randomness is modelled by passing the sampled
values (and, for planet generation, a threaded generator state `ρ`)
explicitly.
-/

namespace Astray

/-- `Star` from `star.rs`. Modelled from the spec: attributes
`name, mass, radius` (§3). -/
structure Star (α : Type) where
  name : String
  mass : α
  radius : α
  deriving DecidableEq

/-- Modelled from the spec: `Star` is `Displayable`; `get_name` returns the
star's name. -/
def Star.get_name {α : Type} (s : Star α) : String := s.name

/-- Modelled from the spec: `Star.get_mass` accessor. -/
def Star.get_mass {α : Type} (s : Star α) : α := s.mass

/-- Modelled from the spec: `Star.get_radius` accessor. -/
def Star.get_radius {α : Type} (s : Star α) : α := s.radius

/-- `Planet` from `planet.rs`. Modelled from the spec: attributes
`mass, radius, orbit_radius, orbit_period, orbit_position, angular_speed`
(§3). -/
structure Planet (α : Type) where
  mass : α
  radius : α
  orbit_radius : α
  orbit_period : α
  orbit_position : α
  angular_speed : α
  deriving DecidableEq

/-- Modelled from the spec: `Planet.get_mass` accessor (`CelestialBody`). -/
def Planet.get_mass {α : Type} (p : Planet α) : α := p.mass

/-- Modelled from the spec: `Planet.get_orbit_radius` accessor (`CanOrbit`). -/
def Planet.get_orbit_radius {α : Type} (p : Planet α) : α := p.orbit_radius

/-- `SolarSystem` from `solar_system.rs`:
`star`, an ordered `planets` sequence, and a `spacing_factor`. -/
structure SolarSystem (α : Type) where
  star : Star α
  planets : List (Planet α)
  spacing_factor : α
  deriving DecidableEq

/-- Modelled from the spec: `nth_orbit(first_orbit_radius, spacing_factor, n)`
expands geometrically from the first orbit radius by compounding the
spacing factor per step (§4.2): `r * (1 + s)^n`, which reduces to `r` at
`n = 0` and is strictly increasing in `n` for `s > 0`, `r > 0`.
Stands in for `helpers::astrophysics::calculate_nth_orbit`. -/
def calculate_nth_orbit {α : Type} [LinearOrderedField α]
    (r s : α) (n : ℕ) : α :=
  r * (1 + s) ^ n

/-- Modelled from the spec: the standard sphere-density relation (§4.2),
`ρ = m / (4/3 · π · r³)`. The constant `π` is passed explicitly because
the embedding is generic over an abstract ordered field.
Stands in for `helpers::astrophysics::calculate_density_from_mass_and_radius`. -/
def calculate_density_from_mass_and_radius {α : Type} [LinearOrderedField α]
    (pi mass radius : α) : α :=
  mass / (4 / 3 * pi * radius ^ 3)

/-- Modelled from the spec: the minimum safe orbit radius around the star,
derived from its radius and density (§4.2). The spec fixes only the
arguments and the role of this function, not its formula; a representative
monotone formula is used, and no claim below depends on the choice.
Stands in for
`helpers::astrophysics::calculate_system_inner_limit_from_star_radius_and_density`. -/
def calculate_system_inner_limit_from_star_radius_and_density
    {α : Type} [LinearOrderedField α] (radius density : α) : α :=
  2 * radius * (1 + density)

namespace SolarSystem

variable {α : Type} [LinearOrderedField α]

/-- `SolarSystem::get_n_planets`: `self.planets.len()`. -/
def get_n_planets (s : SolarSystem α) : ℕ := s.planets.length

/-- `SolarSystem::get_name` (impl `CelestialBody`): `self.star.get_name()`. -/
def get_name (s : SolarSystem α) : String := s.star.get_name

/-- `SolarSystem::get_mass` (impl `CelestialBody`): starts from
`self.star.get_mass()` and adds each planet's mass with a `for_each`
fold over the sequence. -/
def get_mass (s : SolarSystem α) : α :=
  s.planets.foldl (fun r p => r + p.get_mass) s.star.get_mass

/-- `SolarSystem::get_radius` (impl `CelestialBody`):
`self.planets.last().unwrap().get_orbit_radius()`. The `unwrap` of
`Option::None` (empty planet sequence) is a panic, embedded as `none`. -/
def get_radius (s : SolarSystem α) : Option α :=
  s.planets.getLast?.map (fun p => p.get_orbit_radius)

/-- `SolarSystem::get_inner_limit`: composes the two astrophysics helpers
on the star's radius and mass. `π` is threaded explicitly (see
`calculate_density_from_mass_and_radius`). -/
def get_inner_limit (pi : α) (s : SolarSystem α) : α :=
  calculate_system_inner_limit_from_star_radius_and_density
    s.star.get_radius
    (calculate_density_from_mass_and_radius pi s.star.get_mass s.star.get_radius)

/-- `SolarSystem::get_nth_orbit_radius`: if the planet sequence is nonempty,
delegates to `calculate_nth_orbit` on the first planet's orbit radius and
the system's spacing factor, else returns `0.0`. -/
def get_nth_orbit_radius (s : SolarSystem α) (n : ℕ) : α :=
  if h : 0 < s.planets.length then
    calculate_nth_orbit (s.planets.get ⟨0, h⟩).get_orbit_radius s.spacing_factor n
  else
    0

end SolarSystem

/-- Claim C10: `SolarSystem::get_name` returns exactly the name of its star;
the system has no name of its own — the result is independent of the
planet sequence and the spacing factor. -/
theorem get_name_is_star_name {α : Type} [LinearOrderedField α]
    (star : Star α) (planets : List (Planet α)) (spacing : α) :
    SolarSystem.get_name ⟨star, planets, spacing⟩ = star.get_name := rfl

/-- Claim C2: `get_mass` is exactly the star's mass plus the sum of the
planets' masses in sequence order. -/
theorem get_mass_eq_star_add_sum {α : Type} [LinearOrderedField α]
    (s : SolarSystem α) :
    s.get_mass = s.star.get_mass + (s.planets.map Planet.get_mass).sum := by
  unfold SolarSystem.get_mass
  generalize s.star.get_mass = a
  induction s.planets generalizing a with
  | nil => simp
  | cons p ps ih => simp [ih, add_assoc]

/-- Claim C1: `get_radius` returns the orbit radius of the last planet when
the sequence is nonempty, and panics (embedded: `none`) when it is empty. -/
theorem get_radius_spec {α : Type} [LinearOrderedField α]
    (s : SolarSystem α) :
    (s.planets = [] → s.get_radius = none) ∧
    (∀ h : s.planets ≠ [],
      s.get_radius = some (s.planets.getLast h).get_orbit_radius) := by
  constructor
  · intro h
    simp [SolarSystem.get_radius, h]
  · intro h
    simp [SolarSystem.get_radius, List.getLast?_eq_getLast _ h]

/-- A concrete one-planet system used by several witnesses. -/
def sampleSystemOne : SolarSystem ℚ :=
  ⟨⟨"Sol", 10, 2⟩, [⟨1, 1, 5, 7, 0, 3⟩], (2 : ℚ) / 5⟩

/-- A concrete zero-planet system used by several witnesses. -/
def sampleSystemEmpty : SolarSystem ℚ :=
  ⟨⟨"Sol", 10, 2⟩, [], (2 : ℚ) / 5⟩

/-- Witness for C1: both branches evaluated at concrete systems. -/
theorem get_radius_spec_witness :
    sampleSystemEmpty.get_radius = none ∧
    sampleSystemOne.get_radius = some 5 := by
  refine ⟨(get_radius_spec sampleSystemEmpty).1 rfl, ?_⟩
  have h := (get_radius_spec sampleSystemOne).2 (by decide)
  rw [h]
  decide

/-- Claim C3: `get_nth_orbit_radius n` is `0` on a zero-planet system for
every `n`, and on a nonempty system equals `nth_orbit` applied to the first
planet's orbit radius, the spacing factor and `n`. -/
theorem get_nth_orbit_radius_spec {α : Type} [LinearOrderedField α]
    (s : SolarSystem α) (n : ℕ) :
    (s.planets = [] → s.get_nth_orbit_radius n = 0) ∧
    (∀ p rest, s.planets = p :: rest →
      s.get_nth_orbit_radius n =
        calculate_nth_orbit p.get_orbit_radius s.spacing_factor n) := by
  constructor
  · intro h
    simp [SolarSystem.get_nth_orbit_radius, h]
  · intro p rest h
    have hl : 0 < s.planets.length := by simp [h]
    simp only [SolarSystem.get_nth_orbit_radius, dif_pos hl]
    congr 1
    have : s.planets.get ⟨0, hl⟩ = p := by simp [h]
    rw [this]

/-- Witness for C3: both branches evaluated at concrete systems, at `n = 2`. -/
theorem get_nth_orbit_radius_spec_witness :
    sampleSystemEmpty.get_nth_orbit_radius 2 = 0 ∧
    sampleSystemOne.get_nth_orbit_radius 2 =
      calculate_nth_orbit 5 ((2 : ℚ) / 5) 2 := by
  constructor
  · exact (get_nth_orbit_radius_spec sampleSystemEmpty 2).1 rfl
  · have h := (get_nth_orbit_radius_spec sampleSystemOne 2).2
      ⟨1, 1, 5, 7, 0, 3⟩ [] rfl
    rw [h]
    rfl

/-- Claim C8: `get_inner_limit` is the composition of the inner-limit helper
with the density helper on the star's radius and mass, and it depends only
on the star (not on the planet sequence or the spacing factor). -/
theorem get_inner_limit_spec {α : Type} [LinearOrderedField α]
    (pi : α) (s t : SolarSystem α) :
    s.get_inner_limit pi =
      calculate_system_inner_limit_from_star_radius_and_density
        s.star.get_radius
        (calculate_density_from_mass_and_radius pi
          s.star.get_mass s.star.get_radius) ∧
    (s.star = t.star → s.get_inner_limit pi = t.get_inner_limit pi) := by
  refine ⟨rfl, fun h => ?_⟩
  simp [SolarSystem.get_inner_limit, h]

/-- Witness for C8: the star-only dependence evaluated on two concrete
systems sharing a star but differing in planets. -/
theorem get_inner_limit_spec_witness :
    sampleSystemOne.get_inner_limit 3 = sampleSystemEmpty.get_inner_limit 3 :=
  (get_inner_limit_spec 3 sampleSystemOne sampleSystemEmpty).2 (by decide)

/-- Rust float-to-integer truncation (the rounding of an `as` cast):
rounds toward zero. -/
def truncTowardZero {α : Type} [LinearOrderedField α] [FloorRing α]
    (x : α) : ℤ :=
  if x < 0 then ⌈x⌉ else ⌊x⌋

/-- Rust `as i32` on a float: truncation toward zero, saturating at the
`i32` bounds. Used by `SolarSystem::generate` on the sampled planet count. -/
def castToI32 {α : Type} [LinearOrderedField α] [FloorRing α] (x : α) : ℤ :=
  max (-(2 ^ 31)) (min (2 ^ 31 - 1) (truncTowardZero x))

/-- The planet-generation loop of `SolarSystem::generate`:
`for _ in 0..n_planets { system.planets.push(Planet::generate(system.clone())) }`.
The planet generator `pg` stands for `Planet::generate` together with the
thread-local RNG, whose state `ρ` is threaded explicitly; each iteration
passes the current system by value (the `clone`) and appends the result. -/
def genPlanets {α ρ : Type} (pg : SolarSystem α → ρ → Planet α × ρ) :
    SolarSystem α → ρ → ℕ → SolarSystem α × ρ
  | sys, r, 0 => (sys, r)
  | sys, r, n + 1 =>
    genPlanets pg
      { sys with planets := sys.planets ++ [(pg sys r).1] } (pg sys r).2 n

/-- `SolarSystem::generate` (impl `CelestialBody`): samples a spacing
factor, generates a star, samples a planet count from `Normal(5, 1)` and
casts it `as i32`, then runs the planet loop over `0..n_planets`. The
sampled values (`spacing`, the star, the planet-count sample `v`) and the
planet generator with its RNG state are passed explicitly. -/
def SolarSystem.generate {α ρ : Type} [LinearOrderedField α] [FloorRing α]
    (star : Star α) (spacing v : α)
    (pg : SolarSystem α → ρ → Planet α × ρ) (r0 : ρ) : SolarSystem α :=
  (genPlanets pg ⟨star, [], spacing⟩ r0 (castToI32 v).toNat).1

/-- The state of `SolarSystem::generate` after the first `k` loop
iterations: the snapshot (system so far, RNG state) that iteration `k`
hands to `Planet::generate`. -/
def generateSnap {α ρ : Type} (star : Star α) (spacing : α)
    (pg : SolarSystem α → ρ → Planet α × ρ) (r0 : ρ) (k : ℕ) :
    SolarSystem α × ρ :=
  genPlanets pg ⟨star, [], spacing⟩ r0 k

theorem genPlanets_succ_last {α ρ : Type}
    (pg : SolarSystem α → ρ → Planet α × ρ) (n : ℕ) :
    ∀ (sys : SolarSystem α) (r : ρ),
    genPlanets pg sys r (n + 1) =
      ({ (genPlanets pg sys r n).1 with
          planets := (genPlanets pg sys r n).1.planets ++
            [(pg (genPlanets pg sys r n).1 (genPlanets pg sys r n).2).1] },
        (pg (genPlanets pg sys r n).1 (genPlanets pg sys r n).2).2) := by
  induction n with
  | zero => intro sys r; rfl
  | succ m ih =>
    intro sys r
    show genPlanets pg _ _ (m + 1) = _
    rw [ih]
    rfl

theorem genPlanets_star {α ρ : Type}
    (pg : SolarSystem α → ρ → Planet α × ρ) (n : ℕ) :
    ∀ (sys : SolarSystem α) (r : ρ),
    (genPlanets pg sys r n).1.star = sys.star ∧
    (genPlanets pg sys r n).1.spacing_factor = sys.spacing_factor := by
  induction n with
  | zero => intro sys r; exact ⟨rfl, rfl⟩
  | succ m ih => intro sys r; exact ih _ _

theorem genPlanets_length {α ρ : Type}
    (pg : SolarSystem α → ρ → Planet α × ρ) (n : ℕ) :
    ∀ (sys : SolarSystem α) (r : ρ),
    (genPlanets pg sys r n).1.planets.length = sys.planets.length + n := by
  induction n with
  | zero => intro sys r; rfl
  | succ m ih =>
    intro sys r
    show (genPlanets pg _ _ m).1.planets.length = _
    rw [ih]
    simp
    omega

theorem genPlanets_take {α ρ : Type}
    (pg : SolarSystem α → ρ → Planet α × ρ) (sys : SolarSystem α) (r : ρ)
    {k n : ℕ} (h : k ≤ n) :
    (genPlanets pg sys r n).1.planets.take (sys.planets.length + k) =
      (genPlanets pg sys r k).1.planets := by
  induction n with
  | zero =>
    have hk : k = 0 := Nat.le_zero.mp h
    subst hk
    exact List.take_length _
  | succ m ih =>
    rcases Nat.lt_or_ge k (m + 1) with hk | hk
    · have hk' : k ≤ m := Nat.lt_succ_iff.mp hk
      rw [genPlanets_succ_last]
      have hlen : sys.planets.length + k ≤
          (genPlanets pg sys r m).1.planets.length := by
        rw [genPlanets_length]
        omega
      simpa [List.take_append_of_le_length hlen] using ih hk'
    · have hk' : k = m + 1 := Nat.le_antisymm h hk
      subst hk'
      apply List.take_of_length_le
      rw [genPlanets_length]

/-- Claim C4: `SolarSystem::generate` builds planets sequentially. For
every index `k` below the final planet count: the snapshot after `k`
iterations holds exactly `k` planets, namely the first `k` planets of the
final system (with the same star and spacing factor), and the `k`-th
planet of the final system is exactly `Planet::generate` applied to that
snapshot — i.e. planet `k` sees exactly planets `0..k-1` already placed,
and is appended before planet `k+1` is generated. -/
theorem generate_sequential_snapshots {α ρ : Type} [LinearOrderedField α]
    [FloorRing α] (star : Star α) (spacing v : α)
    (pg : SolarSystem α → ρ → Planet α × ρ) (r0 : ρ) (k : ℕ)
    (hk : k < (SolarSystem.generate star spacing v pg r0).planets.length) :
    (generateSnap star spacing pg r0 k).1.planets.length = k ∧
    (generateSnap star spacing pg r0 k).1.star = star ∧
    (generateSnap star spacing pg r0 k).1.spacing_factor = spacing ∧
    (SolarSystem.generate star spacing v pg r0).planets.take k =
      (generateSnap star spacing pg r0 k).1.planets ∧
    (SolarSystem.generate star spacing v pg r0).planets[k]? =
      some (pg (generateSnap star spacing pg r0 k).1
              (generateSnap star spacing pg r0 k).2).1 := by
  have hlen : (SolarSystem.generate star spacing v pg r0).planets.length =
      (castToI32 v).toNat := by
    simpa [SolarSystem.generate] using
      genPlanets_length pg (castToI32 v).toNat ⟨star, [], spacing⟩ r0
  have hkN : k < (castToI32 v).toNat := hlen ▸ hk
  refine ⟨?_, (genPlanets_star pg k ⟨star, [], spacing⟩ r0).1,
    (genPlanets_star pg k ⟨star, [], spacing⟩ r0).2, ?_, ?_⟩
  · simpa [generateSnap] using
      genPlanets_length pg k ⟨star, [], spacing⟩ r0
  · have h := genPlanets_take pg ⟨star, [], spacing⟩ r0 (le_of_lt hkN)
    simpa [SolarSystem.generate, generateSnap] using h
  · have htake := genPlanets_take pg ⟨star, [], spacing⟩ r0
      (Nat.succ_le_of_lt hkN)
    have hlenk : (genPlanets pg ⟨star, [], spacing⟩ r0 k).1.planets.length
        = k := by
      simpa using genPlanets_length pg k ⟨star, [], spacing⟩ r0
    calc (SolarSystem.generate star spacing v pg r0).planets[k]?
        = ((SolarSystem.generate star spacing v pg r0).planets.take
            (k + 1))[k]? :=
          (List.getElem?_take_of_lt (Nat.lt_succ_self k)).symm
      _ = ((genPlanets pg ⟨star, [], spacing⟩ r0 (k + 1)).1.planets)[k]? := by
          rw [show (SolarSystem.generate star spacing v pg r0).planets.take
              (k + 1) = (genPlanets pg ⟨star, [], spacing⟩ r0
                (k + 1)).1.planets from by simpa [SolarSystem.generate]
                  using htake]
      _ = some (pg (generateSnap star spacing pg r0 k).1
              (generateSnap star spacing pg r0 k).2).1 := by
          rw [genPlanets_succ_last]
          show ((genPlanets pg ⟨star, [], spacing⟩ r0 k).1.planets ++
            [(pg (genPlanets pg ⟨star, [], spacing⟩ r0 k).1
                (genPlanets pg ⟨star, [], spacing⟩ r0 k).2).1])[k]? = _
          have hconcat := List.getElem?_concat_length
            (genPlanets pg ⟨star, [], spacing⟩ r0 k).1.planets
            (pg (genPlanets pg ⟨star, [], spacing⟩ r0 k).1
                (genPlanets pg ⟨star, [], spacing⟩ r0 k).2).1
          rw [hlenk] at hconcat
          rw [hconcat]
          rfl

/-- A concrete planet generator used by witnesses: returns a fixed planet
and threads a `ℕ` generator state. -/
def samplePg : SolarSystem ℚ → ℕ → Planet ℚ × ℕ :=
  fun _ n => (⟨1, 1, 1, 1, 0, 1⟩, n + 1)

/-- Witness for C4: the theorem evaluated at a concrete generation run
(`v = 3`, so three planets) at index `k = 1`. -/
theorem generate_sequential_snapshots_witness :
    (generateSnap (⟨"Sol", 10, 2⟩ : Star ℚ) 1 samplePg 0 1).1.planets.length
      = 1 ∧
    (SolarSystem.generate (⟨"Sol", 10, 2⟩ : Star ℚ) 1 3 samplePg 0).planets[1]?
      = some ⟨1, 1, 1, 1, 0, 1⟩ := by
  have h := generate_sequential_snapshots (⟨"Sol", 10, 2⟩ : Star ℚ) 1 3
    samplePg 0 1 (by decide)
  exact ⟨h.1, h.2.2.2.2⟩

/-- Claim C6: the sampled planet count `v` is truncated (`as i32`) and the
generation loop runs `0..n_planets`, so the generated system has exactly
`max(trunc(v), 0)` planets, for every sample within the `i32` range (the
`as` cast saturates outside it); in particular zero planets is a permitted
outcome (any `v < 1` yields it). -/
theorem generate_planet_count {α ρ : Type} [LinearOrderedField α]
    [FloorRing α] (star : Star α) (spacing v : α)
    (pg : SolarSystem α → ρ → Planet α × ρ) (r0 : ρ)
    (hv1 : -(2 ^ 31) < v) (hv2 : v < 2 ^ 31) :
    ((SolarSystem.generate star spacing v pg r0).planets.length : ℤ) =
      max (truncTowardZero v) 0 := by
  have hcast : castToI32 v = truncTowardZero v := by
    have h1 : truncTowardZero v ≤ 2 ^ 31 - 1 := by
      unfold truncTowardZero
      split
      · have hle : (⌈v⌉ : ℤ) ≤ ⌈(0 : α)⌉ := Int.ceil_le_ceil (by linarith)
        simp at hle
        omega
      · have hfl : (⌊v⌋ : α) ≤ v := Int.floor_le v
        have h2 : (⌊v⌋ : α) < ((2 ^ 31 : ℤ) : α) := by push_cast; linarith
        have := Int.cast_lt.mp h2
        omega
    have h2 : -(2 ^ 31) ≤ truncTowardZero v := by
      unfold truncTowardZero
      split
      · have hce : v ≤ (⌈v⌉ : α) := Int.le_ceil v
        have h3 : ((-(2 ^ 31) : ℤ) : α) < (⌈v⌉ : α) := by push_cast; linarith
        exact le_of_lt (Int.cast_lt.mp h3)
      · have hfl : (0 : ℤ) ≤ ⌊v⌋ := Int.floor_nonneg.mpr (by linarith)
        omega
    unfold castToI32
    rw [min_eq_right h1, max_eq_right h2]
  have hlen : (SolarSystem.generate star spacing v pg r0).planets.length =
      (castToI32 v).toNat := by
    simpa [SolarSystem.generate] using
      genPlanets_length pg (castToI32 v).toNat ⟨star, [], spacing⟩ r0
  rw [hlen, hcast, Int.toNat_eq_max]

/-- Witness for C6: evaluated at `v = 3` (three planets) and at `v = 0`
(zero planets — the permitted degenerate outcome). -/
theorem generate_planet_count_witness :
    ((SolarSystem.generate (⟨"Sol", 10, 2⟩ : Star ℚ) 1 3
        samplePg 0).planets.length : ℤ) = max (truncTowardZero (3 : ℚ)) 0 ∧
    ((SolarSystem.generate (⟨"Sol", 10, 2⟩ : Star ℚ) 1 0
        samplePg 0).planets.length : ℤ) = max (truncTowardZero (0 : ℚ)) 0 :=
  ⟨generate_planet_count _ 1 3 samplePg 0 (by decide) (by decide),
   generate_planet_count _ 1 0 samplePg 0 (by decide) (by decide)⟩

/-- Modelled from the spec: normalization of an angle into `[0, twoPi)`
(§3 invariant on `orbit_position`): subtract the largest integer multiple
of the period. The period `twoPi` stands for `2π`, passed explicitly so
the definition is computable over an abstract field. -/
def normalizePos {α : Type} [LinearOrderedField α] [FloorRing α]
    (twoPi x : α) : α :=
  x - twoPi * ⌊x / twoPi⌋

/-- Modelled from the spec: `CanOrbit::update_orbit_position` for `Planet`
(`planet.rs` is not among the provided sources): advances the orbit
position by one tick's angular displacement (`angular_speed`, with the
tick duration as the time unit) and normalizes it into `[0, twoPi)`
(§4.3, §3). -/
def Planet.update_orbit_position {α : Type} [LinearOrderedField α]
    [FloorRing α] (twoPi : α) (p : Planet α) : Planet α :=
  { p with
    orbit_position := normalizePos twoPi (p.orbit_position + p.angular_speed) }

/-- Modelled from the spec: `Orbitable::update_orbits` for `SolarSystem`
(the impl is not among the provided sources): calls `update_orbit_position`
on every planet in sequence order (§4.5). -/
def SolarSystem.update_orbits {α : Type} [LinearOrderedField α] [FloorRing α]
    (twoPi : α) (s : SolarSystem α) : SolarSystem α :=
  { s with planets := s.planets.map (Planet.update_orbit_position twoPi) }

/-- Modelled from the spec: `Planet::generate` (§4.4). The base radius is
the first planet's orbit radius, or the system inner limit for the first
planet; the orbit radius is `nth_orbit` of the base at index
`n = `current sequence length; mass and radius are sampled (passed
explicitly); the orbit period is derived from the orbit radius and the
host star's mass by a Kepler-like relation whose exact formula the spec
leaves open (passed as `periodFn`); `angular_speed = 2π / orbit_period`;
`orbit_position` is initialized to `0`. -/
def Planet.generate {α : Type} [LinearOrderedField α]
    (pi : α) (host : SolarSystem α) (massSample radiusSample : α)
    (periodFn : α → α → α) : Planet α :=
  let base :=
    match host.planets with
    | [] => host.get_inner_limit pi
    | p :: _ => p.get_orbit_radius
  let orad := calculate_nth_orbit base host.spacing_factor host.planets.length
  let period := periodFn orad host.star.get_mass
  { mass := massSample
    radius := radiusSample
    orbit_radius := orad
    orbit_period := period
    orbit_position := 0
    angular_speed := 2 * pi / period }

theorem normalizePos_mem_Ico {α : Type} [LinearOrderedField α] [FloorRing α]
    {twoPi : α} (h : 0 < twoPi) (x : α) :
    normalizePos twoPi x ∈ Set.Ico 0 twoPi := by
  have hrw : normalizePos twoPi x = twoPi * Int.fract (x / twoPi) := by
    unfold normalizePos Int.fract
    field_simp
  rw [hrw]
  constructor
  · exact mul_nonneg h.le (Int.fract_nonneg _)
  · calc twoPi * Int.fract (x / twoPi) < twoPi * 1 :=
          (mul_lt_mul_left h).mpr (Int.fract_lt_one _)
      _ = twoPi := mul_one _

/-- Claim C5: for every generated planet, `orbit_position` lies in
`[0, 2π)` initially (`n = 0`) and after every number `n` of
`update_orbit_position` calls, for any host system, sampled values and
period derivation. -/
theorem orbit_position_mem_Ico (host : SolarSystem ℝ)
    (massSample radiusSample : ℝ) (periodFn : ℝ → ℝ → ℝ) (n : ℕ) :
    ((Planet.update_orbit_position (2 * Real.pi))^[n]
        (Planet.generate Real.pi host massSample radiusSample
          periodFn)).orbit_position ∈ Set.Ico 0 (2 * Real.pi) := by
  induction n with
  | zero =>
    show (Planet.generate Real.pi host massSample radiusSample
        periodFn).orbit_position ∈ Set.Ico 0 (2 * Real.pi)
    have h0 : (Planet.generate Real.pi host massSample radiusSample
        periodFn).orbit_position = 0 := rfl
    rw [h0]
    exact ⟨le_refl 0, Real.two_pi_pos⟩
  | succ m ih =>
    rw [Function.iterate_succ_apply']
    exact normalizePos_mem_Ico Real.two_pi_pos _

/-- Claim C7: `update_orbits` changes only the planets' orbit positions:
the star and the spacing factor are unchanged, the planet sequence keeps
its length, and at every index the planet's orbit radius, mass, radius,
orbit period and angular speed are unchanged. -/
theorem update_orbits_frame {α : Type} [LinearOrderedField α] [FloorRing α]
    (twoPi : α) (s : SolarSystem α) :
    (s.update_orbits twoPi).star = s.star ∧
    (s.update_orbits twoPi).spacing_factor = s.spacing_factor ∧
    (s.update_orbits twoPi).planets.length = s.planets.length ∧
    ∀ i : ℕ,
      (s.update_orbits twoPi).planets[i]?.map Planet.orbit_radius =
        s.planets[i]?.map Planet.orbit_radius ∧
      (s.update_orbits twoPi).planets[i]?.map Planet.mass =
        s.planets[i]?.map Planet.mass ∧
      (s.update_orbits twoPi).planets[i]?.map Planet.radius =
        s.planets[i]?.map Planet.radius ∧
      (s.update_orbits twoPi).planets[i]?.map Planet.orbit_period =
        s.planets[i]?.map Planet.orbit_period ∧
      (s.update_orbits twoPi).planets[i]?.map Planet.angular_speed =
        s.planets[i]?.map Planet.angular_speed := by
  refine ⟨rfl, rfl, by simp [SolarSystem.update_orbits], fun i => ?_⟩
  simp only [SolarSystem.update_orbits, List.getElem?_map]
  cases s.planets[i]? <;>
    simp [Planet.update_orbit_position]

/-- Rust `str::split` with the single-character separator `"\n"`, as used
to build `constants::STAR_NAMES` in `celestial_bodies.rs`: splits the
contents at every newline, keeping empty parts, and yields one part even
for the empty string. -/
def splitNewline : List Char → List (List Char)
  | [] => [[]]
  | c :: cs =>
    if c = '\n' then [] :: splitNewline cs
    else
      match splitNewline cs with
      | [] => [[c]]
      | h :: t => (c :: h) :: t

/-- `constants::STAR_NAMES`: reads the name-list asset and splits it on
`"\n"`. A missing or unreadable asset makes `read_to_string` return `Err`,
whose `unwrap` aborts at first access — embedded as `none` in, `none`
out. -/
def STAR_NAMES (asset : Option (List Char)) : Option (List (List Char)) :=
  match asset with
  | none => none
  | some s => some (splitNewline s)

theorem splitNewline_ne_nil (s : List Char) : splitNewline s ≠ [] := by
  induction s with
  | nil => simp [splitNewline]
  | cons c cs ih =>
    simp only [splitNewline]
    split
    · simp
    · cases hcs : splitNewline cs <;> simp

theorem getLast?_cons_of_ne_nil {β : Type} (x : β) {l : List β}
    (h : l ≠ []) : (x :: l).getLast? = l.getLast? := by
  cases l with
  | nil => exact absurd rfl h
  | cons y ys => exact List.getLast?_cons_cons

theorem splitNewline_append_newline (s : List Char) :
    2 ≤ (splitNewline (s ++ ['\n'])).length ∧
    (splitNewline (s ++ ['\n'])).getLast? = some [] := by
  induction s with
  | nil => exact ⟨by simp [splitNewline], by simp [splitNewline]⟩
  | cons c cs ih =>
    obtain ⟨ih1, ih2⟩ := ih
    have hne : splitNewline (cs ++ ['\n']) ≠ [] := splitNewline_ne_nil _
    show 2 ≤ (splitNewline (c :: (cs ++ ['\n']))).length ∧
      (splitNewline (c :: (cs ++ ['\n']))).getLast? = some []
    simp only [splitNewline]
    split
    · refine ⟨by simp; omega, ?_⟩
      rw [getLast?_cons_of_ne_nil _ hne]
      exact ih2
    · rcases hcs : splitNewline (cs ++ ['\n']) with _ | ⟨h0, t⟩
      · exact absurd hcs hne
      · rw [hcs] at ih1 ih2
        have ht : t ≠ [] := by
          intro habs
          rw [habs] at ih1
          simp at ih1
        constructor
        · simpa using ih1
        · rw [getLast?_cons_of_ne_nil _ ht]
          rw [getLast?_cons_of_ne_nil _ ht] at ih2
          exact ih2

/-- Claim C9: splitting any asset contents on the newline separator yields
at least one entry (so the empty-name-table failure case is unreachable);
entries may be empty strings: the empty file yields exactly one
empty-string entry, and contents with a trailing newline yield an
empty-string final entry; and a missing or unreadable asset aborts at
first access instead of producing a table. -/
theorem star_names_table_spec :
    (∀ s : List Char, 1 ≤ (splitNewline s).length) ∧
    splitNewline [] = [[]] ∧
    (∀ s : List Char, s.getLast? = some '\n' →
      (splitNewline s).getLast? = some []) ∧
    STAR_NAMES none = none := by
  refine ⟨?_, rfl, ?_, rfl⟩
  · intro s
    rcases hcs : splitNewline s with _ | ⟨h0, t⟩
    · exact absurd hcs (splitNewline_ne_nil s)
    · simp
  · intro s hs
    obtain ⟨s', rfl⟩ := List.getLast?_eq_some_iff.mp hs
    exact (splitNewline_append_newline s').2

/-- Witness for C9: the trailing-newline branch evaluated on the concrete
contents `"Sol\n"`. -/
theorem star_names_table_spec_witness :
    (splitNewline ['S', 'o', 'l', '\n']).getLast? = some [] :=
  star_names_table_spec.2.2.1 ['S', 'o', 'l', '\n'] (by decide)

end Astray
